import Mathlib

/-!
# Verification of the 6502-Emulator pipeline core

Shallow embedding of the cycle-accurate 6502-style emulator:
`Memory`, `MMU`, `InterruptController` and the CPU pipeline state machine
(`Cpu.pulse`) are translated into pure Lean functions over an explicit
machine state.  JavaScript numbers holding bytes/words are modelled as `Nat`
with explicit `% 256` / `% 65536` where the source masks with `& 0xFF` /
`& 0xFFFF`; values that the source keeps as `number | null` become
`Option Nat`; the JS truthiness test on such a value becomes `truthyOpt`.
Signed intermediate values (CPX subtraction, BNE offsets) are modelled via
`Int` with `%` (euclidean mod), matching JS `&` masking of negatives.
Console logging is a diagnostic side channel (spec §1) and is dropped;
program output is recorded as the list of events handed to the host
(`appendProgramOutput`), with the external ASCII encoder abstracted to the
byte it is given.
-/

namespace Emu

/-- Instruction tags, from `Instructions.ts` (enum `Instruction`). -/
inductive Instruction where
  | NAN | LDA | STA | TXA | TYA | ADC | LDX | TAX | LDY | TAY
  | NOP | BRK | CPX | BNE | INC | SYS
deriving DecidableEq

/-- Pipeline stages, from `Cpu.ts` (enum `PipelineStep`). -/
inductive PipelineStep where
  | None | Fetch | Decode | Execute | Writeback | InterruptCheck
deriving DecidableEq

/-- An interrupt record, from `Interrupt.ts`.  `priority` is a JS `number`
used as an integer (the spec's data model: "priority: integer"). -/
structure Interrupt where
  irqNumber : Nat
  priority : Int
  deviceName : String
  data : Nat
deriving DecidableEq

/-- Memory state, from `Memory.ts`.  `MEMORY` is the `Uint8Array(0x10000)`,
modelled as a total function (indices ≥ 0x10000 are outside the real array;
writes there are dropped as JS does, reads there are left abstract). -/
structure MemState where
  MEMORY : Nat → Nat
  MAR : Nat
  MDR : Nat
  isReadPending : Bool
  isWritePending : Bool

/-- MMU program-load state, from `MMU.ts`. -/
structure MmuState where
  PROGRAM : List Nat
  loadAddress : Nat
  isLoading : Bool
deriving DecidableEq

/-- One output event handed to `System.appendProgramOutput`: either the
decimal print of a register (SYS X=1) or one character byte passed to the
external ASCII encoder (SYS X=2/3). -/
inductive OutputEvent where
  | int (n : Nat)
  | ch (b : Nat)
deriving DecidableEq

/-- CPU register and pipeline state, from `Cpu.ts` (fields keep the source
names; the `operand` two-element array becomes `operand0`/`operand1`;
`executeFunction` is the bound micro-op, represented by its instruction tag
as the spec's §9 design note prescribes for a systems language). -/
structure CpuState where
  aRegister : Nat
  xRegister : Nat
  yRegister : Nat
  zRegister : Bool
  cRegister : Bool
  pcRegister : Nat
  iRegister : Instruction
  opcode : Nat
  operand0 : Nat
  operand1 : Nat
  step : PipelineStep
  currentCyclePulseCount : Nat
  fetchCount : Nat
  currentFetch : Nat
  executeFunction : Option Instruction
  writeAddress : Option Nat
  writeValue : Option Nat
  pendingInterrupt : Option Interrupt
  useCarry : Bool

/-- The whole machine: CPU, Memory, MMU, the interrupt controller's waiting
list, the `System.running` flag and the program output stream. -/
structure MachineState where
  cpu : CpuState
  mem : MemState
  mmu : MmuState
  waitingInterrupts : List Interrupt
  running : Bool
  output : List OutputEvent

/-- JS truthiness of a `number | null` value: `null` and `0` are falsy. -/
def truthyOpt : Option Nat → Bool
  | Option.none => false
  | Option.some n => n != 0

/-- `MMU.triggerRead(address)`: latch MAR, queue a read. -/
def triggerRead (address : Nat) (s : MachineState) : MachineState :=
  { s with mem := { s.mem with MAR := address, isReadPending := true } }

/-- `MMU.writeImmediate(address, value)`: latch MAR and MDR, queue a write. -/
def writeImmediate (address value : Nat) (s : MachineState) : MachineState :=
  { s with mem := { s.mem with MAR := address, MDR := value, isWritePending := true } }

/-- `MMU.getMDR()`: forwarded to Memory. -/
def getMDR (s : MachineState) : Nat :=
  s.mem.MDR

/-- `MMU.loadProgram()`: pop the next byte and queue its write, or end the
load when the queue is empty. -/
def loadProgram (s : MachineState) : MachineState :=
  match s.mmu.PROGRAM with
  | b :: rest =>
      let s' := writeImmediate s.mmu.loadAddress b s
      { s' with mmu := { s'.mmu with
          PROGRAM := rest, loadAddress := s'.mmu.loadAddress + 1, isLoading := true } }
  | [] => { s with mmu := { s.mmu with isLoading := false } }

/-- `MMU.setProgram(program)`: `reset()` (clear the queue and the load
address, re-zero the memory cells — MAR/MDR/pending flags are untouched by
`Memory.reset`), then install the program and prime the first write. -/
def setProgram (program : List Nat) (s : MachineState) : MachineState :=
  let s' := { s with
    mmu := { PROGRAM := [], loadAddress := 0, isLoading := false },
    mem := { s.mem with MEMORY := fun _ => 0 } }
  let s'' := { s' with mmu := { PROGRAM := program, loadAddress := 0, isLoading := true } }
  loadProgram s''

/-- `Memory.pulse()`: a pending write commits first (`cells[MAR] ← MDR`,
`Uint8Array` reduces the stored value mod 256 and ignores out-of-range
indices), then—if the MMU is loading—`loadProgram` latches the next byte;
a pending read then sets `MDR ← cells[MAR]`. -/
def memPulse (s : MachineState) : MachineState :=
  let s1 :=
    if s.mem.isWritePending then
      let m := s.mem
      let cells' : Nat → Nat := fun i =>
        if m.MAR < 65536 ∧ i = m.MAR then m.MDR % 256 else m.MEMORY i
      let sw := { s with mem := { m with MEMORY := cells', isWritePending := false } }
      if sw.mmu.isLoading then loadProgram sw else sw
    else s
  if s1.mem.isReadPending then
    { s1 with mem := { s1.mem with MDR := s1.mem.MEMORY s1.mem.MAR, isReadPending := false } }
  else s1

/-- `Cpu.setInterrupt(interrupt)`: a null interrupt is ignored; otherwise it
is latched into the pending slot. -/
def setInterrupt (interrupt : Option Interrupt) (c : CpuState) : CpuState :=
  match interrupt with
  | Option.some i => { c with pendingInterrupt := Option.some i }
  | Option.none => c

/-- One step of the `forEach` scan in `InterruptController.pulse`: keep the
incoming interrupt only if its priority strictly exceeds the running
maximum. -/
def selScan (acc : Int × Option Interrupt) (i : Interrupt) : Int × Option Interrupt :=
  if i.priority > acc.1 then (i.priority, Option.some i) else acc

/-- The interrupt-selection scan of `InterruptController.pulse`: fold over
the waiting list with the running maximum starting at −1
(`runningPriority = -1`, `runningInterrupt = null`). -/
def selectInterrupt (waiting : List Interrupt) : Option Interrupt :=
  (waiting.foldl selScan (-1, Option.none)).2

/-- `InterruptController.pulse()`: deliver the selected interrupt (possibly
null) to the CPU and clear the waiting list. -/
def intPulse (s : MachineState) : MachineState :=
  { s with cpu := setInterrupt (selectInterrupt s.waitingInterrupts) s.cpu,
           waitingInterrupts := [] }

/-- `System.stopSystem()`: set `running ← false` (the clock stop, keyboard
silencing and menu-side program-completion report are host collaborators
outside the core, spec §1). -/
def stopSystem (s : MachineState) : MachineState :=
  { s with running := false }

/-- `System.appendProgramOutput`: append one event to the output stream. -/
def appendProgramOutput (e : OutputEvent) (s : MachineState) : MachineState :=
  { s with output := s.output ++ [e] }

/-- The effective absolute address `(operand[1] << 8) | operand[0]`. -/
def absAddress (c : CpuState) : Nat :=
  (c.operand1 <<< 8) ||| c.operand0

/-- `operand[currentFetch] = value` for the two-element operand array. -/
def setOperand (i value : Nat) (c : CpuState) : CpuState :=
  if i = 0 then { c with operand0 := value }
  else if i = 1 then { c with operand1 := value }
  else c

/-- `Cpu.loadCaseHelper`: shared body of LDA/LDX/LDY.  Immediate mode takes
`operand[0]` directly; absolute mode triggers a read on pulse 1 and
consumes the MDR on pulse 2. -/
def loadCaseHelper (immCaseOpcode : Nat) (set : Nat → CpuState → CpuState)
    (s : MachineState) : MachineState × Bool :=
  if s.cpu.opcode = immCaseOpcode then
    ({ s with cpu := set s.cpu.operand0 s.cpu }, false)
  else
    if s.cpu.currentCyclePulseCount = 1 then
      (triggerRead (absAddress s.cpu) s, true)
    else if s.cpu.currentCyclePulseCount = 2 then
      ({ s with cpu := set (getMDR s) s.cpu }, false)
    else (s, true)

/-- `Cpu.LDA` (source sets A with `& 0xFF`, modelled as `% 256`). -/
def LDA (s : MachineState) : MachineState × Bool :=
  loadCaseHelper 0xA9 (fun v c => { c with aRegister := v % 256 }) s

/-- `Cpu.LDX`. -/
def LDX (s : MachineState) : MachineState × Bool :=
  loadCaseHelper 0xA2 (fun v c => { c with xRegister := v % 256 }) s

/-- `Cpu.LDY`. -/
def LDY (s : MachineState) : MachineState × Bool :=
  loadCaseHelper 0xA0 (fun v c => { c with yRegister := v % 256 }) s

/-- `Cpu.STA`: queue an immediate write of A on pulse 1, idle on pulse 2. -/
def STA (s : MachineState) : MachineState × Bool :=
  if s.cpu.currentCyclePulseCount = 1 then
    (writeImmediate (absAddress s.cpu) s.cpu.aRegister s, true)
  else (s, false)

/-- `Cpu.TXA` (`A ← X & 0xFF`). -/
def TXA (s : MachineState) : MachineState × Bool :=
  ({ s with cpu := { s.cpu with aRegister := s.cpu.xRegister % 256 } }, false)

/-- `Cpu.TYA` (`A ← Y & 0xFF`). -/
def TYA (s : MachineState) : MachineState × Bool :=
  ({ s with cpu := { s.cpu with aRegister := s.cpu.yRegister % 256 } }, false)

/-- `Cpu.TAX` (`X ← A & 0xFF`). -/
def TAX (s : MachineState) : MachineState × Bool :=
  ({ s with cpu := { s.cpu with xRegister := s.cpu.aRegister % 256 } }, false)

/-- `Cpu.TAY` (`Y ← A & 0xFF`). -/
def TAY (s : MachineState) : MachineState × Bool :=
  ({ s with cpu := { s.cpu with yRegister := s.cpu.aRegister % 256 } }, false)

/-- `Cpu.ADC`: read `M[operand]` across pulses 1–2, then
`sum = A + value + (useCarry && C ? 1 : 0)`, `C ← sum > 0xFF`,
`A ← sum & 0xFF` (as `% 256`); Z untouched.  A pulse count other than 1 or
2 falls off the end of the source function (undefined, falsy ⇒ done). -/
def ADC (s : MachineState) : MachineState × Bool :=
  if s.cpu.currentCyclePulseCount = 1 then
    (triggerRead (absAddress s.cpu) s, true)
  else if s.cpu.currentCyclePulseCount = 2 then
    let value := getMDR s
    let sum := s.cpu.aRegister + value + (if s.cpu.useCarry && s.cpu.cRegister then 1 else 0)
    ({ s with cpu := { s.cpu with
        cRegister := decide (sum > 0xFF), aRegister := sum % 256 } }, false)
  else (s, false)

/-- `Cpu.NOP`. -/
def NOP (s : MachineState) : MachineState × Bool :=
  (s, false)

/-- `Cpu.BRK`: stop the system. -/
def BRK (s : MachineState) : MachineState × Bool :=
  (stopSystem s, false)

/-- `Cpu.CPX`: read `M[operand]`, then `r = (X − value) & 0xFF` (JS `&`
reduces the possibly-negative difference mod 256, modelled via `Int`),
`Z ← r = 0`, `C ← X ≥ value`. -/
def CPX (s : MachineState) : MachineState × Bool :=
  if s.cpu.currentCyclePulseCount = 1 then
    (triggerRead (absAddress s.cpu) s, true)
  else if s.cpu.currentCyclePulseCount = 2 then
    let value := getMDR s
    let result := (((s.cpu.xRegister : Int) - (value : Int)) % 256).toNat
    ({ s with cpu := { s.cpu with
        zRegister := decide (result = 0),
        cRegister := decide (s.cpu.xRegister ≥ value) } }, false)
  else (s, false)

/-- `Cpu.BNE`: if Z is clear, sign-extend `operand[0]` and set
`PC ← (PC + offset) & 0xFFFF` (JS `&` of a possibly-negative sum, modelled
via `Int` euclidean mod). -/
def BNE (s : MachineState) : MachineState × Bool :=
  if !s.cpu.zRegister then
    let offset := s.cpu.operand0
    let signedOffset : Int := if offset < 0x80 then (offset : Int) else (offset : Int) - 0x100
    let newPC := (((s.cpu.pcRegister : Int) + signedOffset) % 65536).toNat
    ({ s with cpu := { s.cpu with pcRegister := newPC } }, false)
  else (s, false)

/-- `Cpu.INC`: read `M[operand]` across pulses 1–2, then latch
`writeValue ← (MDR + 1) & 0xFF` and `writeAddress ← operand address` for
the Writeback stage. -/
def INC (s : MachineState) : MachineState × Bool :=
  let address := absAddress s.cpu
  if s.cpu.currentCyclePulseCount = 1 then
    (triggerRead address s, true)
  else if s.cpu.currentCyclePulseCount = 2 then
    ({ s with cpu := { s.cpu with
        writeValue := Option.some ((getMDR s + 1) % 256),
        writeAddress := Option.some address } }, false)
  else (s, false)

/-- `Cpu.SYS`: dispatch on X.  X=1 prints Y as an integer; X=2 streams a
null-terminated string from address `(0x00 << 8) | Y`, X=3 from the 16-bit
operand; both string variants reuse `writeAddress` as the read cursor and
advance it past each non-null character (in the source the cursor is a
plain number at that point, hence `getD 0` below is only the unreachable
null case). -/
def SYS (s : MachineState) : MachineState × Bool :=
  if s.cpu.xRegister = 0x01 then
    (appendProgramOutput (OutputEvent.int s.cpu.yRegister) s, false)
  else if s.cpu.xRegister = 0x02 then
    if s.cpu.currentCyclePulseCount = 1 then
      let a := (0x00 <<< 8) ||| s.cpu.yRegister
      let s' := { s with cpu := { s.cpu with writeAddress := Option.some a } }
      (triggerRead a s', true)
    else if s.cpu.currentCyclePulseCount ≥ 2 then
      let currentChar := getMDR s
      if currentChar ≠ 0 then
        let s' := appendProgramOutput (OutputEvent.ch currentChar) s
        let a := s'.cpu.writeAddress.getD 0 + 1
        let s'' := { s' with cpu := { s'.cpu with writeAddress := Option.some a } }
        (triggerRead a s'', true)
      else (s, false)
    else (s, false)
  else if s.cpu.xRegister = 0x03 then
    if s.cpu.currentCyclePulseCount = 1 then
      let a := absAddress s.cpu
      let s' := { s with cpu := { s.cpu with writeAddress := Option.some a } }
      (triggerRead a s', true)
    else if s.cpu.currentCyclePulseCount ≥ 2 then
      let currentChar := getMDR s
      if currentChar ≠ 0 then
        let s' := appendProgramOutput (OutputEvent.ch currentChar) s
        let a := s'.cpu.writeAddress.getD 0 + 1
        let s'' := { s' with cpu := { s'.cpu with writeAddress := Option.some a } }
        (triggerRead a s'', true)
      else (s, false)
    else (s, false)
  else
    (s, false)

/-- Dispatch of the bound `executeFunction` handle (§9: a sum over the
instruction set).  `NAN` is never installed by decode. -/
def runMicroOp : Instruction → MachineState → MachineState × Bool
  | Instruction.LDA, s => LDA s
  | Instruction.STA, s => STA s
  | Instruction.TXA, s => TXA s
  | Instruction.TYA, s => TYA s
  | Instruction.ADC, s => ADC s
  | Instruction.LDX, s => LDX s
  | Instruction.TAX, s => TAX s
  | Instruction.LDY, s => LDY s
  | Instruction.TAY, s => TAY s
  | Instruction.NOP, s => NOP s
  | Instruction.BRK, s => BRK s
  | Instruction.CPX, s => CPX s
  | Instruction.BNE, s => BNE s
  | Instruction.INC, s => INC s
  | Instruction.SYS, s => SYS s
  | Instruction.NAN, s => (s, false)

/-- `InstructionSet.decodeMapper` entry for an opcode: the operand count
and the instruction whose micro-op is installed; `none` for an opcode
absent from the table.  The SYS entry (0xFF) inspects X at decode time. -/
def decodeEntry (opcode xRegister : Nat) : Option (Nat × Instruction) :=
  if opcode = 0xA9 then Option.some (1, Instruction.LDA)
  else if opcode = 0xAD then Option.some (2, Instruction.LDA)
  else if opcode = 0x8D then Option.some (2, Instruction.STA)
  else if opcode = 0x8A then Option.some (0, Instruction.TXA)
  else if opcode = 0x98 then Option.some (0, Instruction.TYA)
  else if opcode = 0x6D then Option.some (2, Instruction.ADC)
  else if opcode = 0xA2 then Option.some (1, Instruction.LDX)
  else if opcode = 0xAE then Option.some (2, Instruction.LDX)
  else if opcode = 0xAA then Option.some (0, Instruction.TAX)
  else if opcode = 0xA0 then Option.some (1, Instruction.LDY)
  else if opcode = 0xAC then Option.some (2, Instruction.LDY)
  else if opcode = 0xA8 then Option.some (0, Instruction.TAY)
  else if opcode = 0xEA then Option.some (0, Instruction.NOP)
  else if opcode = 0x00 then Option.some (0, Instruction.BRK)
  else if opcode = 0xEC then Option.some (2, Instruction.CPX)
  else if opcode = 0xD0 then Option.some (1, Instruction.BNE)
  else if opcode = 0xEE then Option.some (2, Instruction.INC)
  else if opcode = 0xFF then
    Option.some (if xRegister = 0x03 then 2 else 0, Instruction.SYS)
  else Option.none

/-- Errors thrown inside `Cpu.pulse`'s try block. -/
inductive CpuErr where
  | unknownOpcode (opcode : Nat)
  | executeFunctionNotSet
deriving DecidableEq

/-- `Cpu.handleAdditionalFetches`: the operand-fetch stall.  Pulse 1
triggers the read at PC; pulse 2 stores the MDR into
`operand[currentFetch]`, increments PC (no masking in the source) and
`currentFetch`, and clears the stall when all bytes are in. -/
def handleAdditionalFetches (s : MachineState) : MachineState :=
  let s1 := { s with cpu := { s.cpu with
      currentCyclePulseCount := s.cpu.currentCyclePulseCount + 1 } }
  if s1.cpu.currentCyclePulseCount = 1 then
    triggerRead s1.cpu.pcRegister s1
  else if s1.cpu.currentCyclePulseCount = 2 then
    let value := getMDR s1
    let c := setOperand s1.cpu.currentFetch value s1.cpu
    let c1 := { c with pcRegister := c.pcRegister + 1,
                       currentFetch := c.currentFetch + 1,
                       currentCyclePulseCount := 0 }
    let c2 := if c1.currentFetch ≥ c1.fetchCount
              then { c1 with fetchCount := 0, currentFetch := 0 } else c1
    { s1 with cpu := c2 }
  else s1

/-- The try-block body of `Cpu.pulse()`: returns the (possibly partially
updated) state together with the error thrown, if any.  The pulse itself
catches every error at this boundary (`cpuPulse` below keeps the state and
drops the error, exactly as the source's catch clause only logs). -/
def cpuTick (s : MachineState) : MachineState × Option CpuErr :=
  if !s.running then (s, Option.none)
  else if s.mmu.isLoading then (s, Option.none)
  else if s.cpu.fetchCount > 0 then (handleAdditionalFetches s, Option.none)
  else
    let s0 := { s with cpu := { s.cpu with
        currentCyclePulseCount := s.cpu.currentCyclePulseCount + 1 } }
    match s0.cpu.step with
    | PipelineStep.Fetch =>
        if s0.cpu.currentCyclePulseCount = 1 then
          (triggerRead s0.cpu.pcRegister s0, Option.none)
        else if s0.cpu.currentCyclePulseCount = 2 then
          ({ s0 with cpu := { s0.cpu with
              opcode := getMDR s0, pcRegister := s0.cpu.pcRegister + 1,
              currentCyclePulseCount := 0, step := PipelineStep.Decode } }, Option.none)
        else (s0, Option.none)
    | PipelineStep.Decode =>
        match decodeEntry s0.cpu.opcode s0.cpu.xRegister with
        | Option.some (numOperands, ins) =>
            ({ s0 with cpu := { s0.cpu with
                fetchCount := numOperands, iRegister := ins,
                executeFunction := Option.some ins,
                currentCyclePulseCount := 0, step := PipelineStep.Execute } }, Option.none)
        | Option.none => (s0, Option.some (CpuErr.unknownOpcode s0.cpu.opcode))
    | PipelineStep.Execute =>
        match s0.cpu.executeFunction with
        | Option.none => (s0, Option.some CpuErr.executeFunctionNotSet)
        | Option.some ins =>
            let r := runMicroOp ins s0
            if r.2 then (r.1, Option.none)
            else
              ({ r.1 with cpu := { r.1.cpu with
                  currentCyclePulseCount := 0,
                  step := if truthyOpt r.1.cpu.writeAddress && truthyOpt r.1.cpu.writeValue
                          then PipelineStep.Writeback else PipelineStep.InterruptCheck } },
               Option.none)
    | PipelineStep.Writeback =>
        let s1 := { s0 with cpu := { s0.cpu with currentCyclePulseCount := 0 } }
        let s2 :=
          if s1.cpu.writeAddress ≠ Option.none ∨ s1.cpu.writeValue ≠ Option.none then
            let sw := writeImmediate (s1.cpu.writeAddress.getD 0) (s1.cpu.writeValue.getD 0) s1
            { sw with cpu := { sw.cpu with
                writeAddress := Option.none, writeValue := Option.none } }
          else s1
        ({ s2 with cpu := { s2.cpu with step := PipelineStep.InterruptCheck } }, Option.none)
    | PipelineStep.InterruptCheck =>
        match s0.cpu.pendingInterrupt with
        | Option.some i =>
            if i.deviceName = "Keyboard" ∧ (i.data = 113 ∨ i.data = 81) then
              -- `String.fromCharCode(data).toLowerCase() === 'q'`; early return:
              -- the stage and pulse counter are left as they are.
              (stopSystem { s0 with cpu := { s0.cpu with pendingInterrupt := Option.none } },
               Option.none)
            else
              ({ s0 with cpu := { s0.cpu with
                  pendingInterrupt := Option.none, currentCyclePulseCount := 0,
                  step := PipelineStep.Fetch } }, Option.none)
        | Option.none =>
            ({ s0 with cpu := { s0.cpu with
                pendingInterrupt := Option.none, currentCyclePulseCount := 0,
                step := PipelineStep.Fetch } }, Option.none)
    | PipelineStep.None => (s0, Option.none)

/-- `Cpu.pulse()`: the try-block with every error caught (and only logged)
at the tick boundary. -/
def cpuPulse (s : MachineState) : MachineState :=
  (cpuTick s).1

/-- One clock pulse: listeners fire in registration order
CPU, Memory, InterruptController (`System.startSystem`). -/
def systemTick (s : MachineState) : MachineState :=
  intPulse (memPulse (cpuPulse s))

/-- `n` clock pulses. -/
def run (n : Nat) (s : MachineState) : MachineState :=
  match n with
  | 0 => s
  | n + 1 => run n (systemTick s)

/-- The machine as built by the `System` constructor, after a program has
been selected (`running ← true`, `startClock`): all registers zero, clean
pipeline, empty memory and queues. -/
def bootState : MachineState :=
  { cpu := { aRegister := 0, xRegister := 0, yRegister := 0,
             zRegister := false, cRegister := false, pcRegister := 0,
             iRegister := Instruction.NAN, opcode := 0, operand0 := 0, operand1 := 0,
             step := PipelineStep.Fetch, currentCyclePulseCount := 0,
             fetchCount := 0, currentFetch := 0,
             executeFunction := Option.none, writeAddress := Option.none,
             writeValue := Option.none, pendingInterrupt := Option.none,
             useCarry := false },
    mem := { MEMORY := fun _ => 0, MAR := 0, MDR := 0,
             isReadPending := false, isWritePending := false },
    mmu := { PROGRAM := [], loadAddress := 0, isLoading := false },
    waitingInterrupts := [], running := true, output := [] }

/-- The spec §8 byte-width invariant on the CPU registers (§3 data model:
`write_value` is a Byte when set). -/
def CpuBytesWF (c : CpuState) : Prop :=
  c.aRegister < 256 ∧ c.xRegister < 256 ∧ c.yRegister < 256 ∧
  c.opcode < 256 ∧ c.operand0 < 256 ∧ c.operand1 < 256 ∧
  ∀ v ∈ c.writeValue, v < 256

/-- Byte-width of the memory cells and the MDR latch. -/
def MemBytesWF (m : MemState) : Prop :=
  (∀ i, m.MEMORY i < 256) ∧ m.MDR < 256

/-- Byte-width of the queued program bytes. -/
def ProgramBytesWF (u : MmuState) : Prop :=
  ∀ b ∈ u.PROGRAM, b < 256

/-- The CPU state as Fetch/Decode leave it for `INC $0010` (EE 10 00):
Execute stage entered, the INC micro-op installed, the operand bytes
latched, the memory queues idle. -/
def decodedINC16 (s : MachineState) : MachineState :=
  { s with
    cpu := { s.cpu with
      step := PipelineStep.Execute, currentCyclePulseCount := 0,
      fetchCount := 0, currentFetch := 0,
      executeFunction := Option.some Instruction.INC,
      operand0 := 0x10, operand1 := 0 },
    mem := { s.mem with isReadPending := false, isWritePending := false } }

/-- One full `INC $0010` instruction from the Execute stage: four clock
pulses cover Execute (read, compute), Writeback (when taken) and
InterruptCheck. -/
def execINC16 (s : MachineState) : MachineState :=
  run 4 (decodedINC16 s)

/-- The proved per-instruction effect of `INC $0010` on the cell. -/
def incEffect (v : Nat) : Nat :=
  if v = 255 then 255 else v + 1

/-! ### Frame lemmas: which components each listener can touch -/

theorem memPulse_cpu (s : MachineState) : (memPulse s).cpu = s.cpu := by
  cases hw : s.mem.isWritePending <;> cases hl : s.mmu.isLoading <;>
    cases hp : s.mmu.PROGRAM <;> cases hr : s.mem.isReadPending <;>
    simp [memPulse, loadProgram, writeImmediate, hw, hl, hp, hr]

theorem memPulse_running (s : MachineState) : (memPulse s).running = s.running := by
  cases hw : s.mem.isWritePending <;> cases hl : s.mmu.isLoading <;>
    cases hp : s.mmu.PROGRAM <;> cases hr : s.mem.isReadPending <;>
    simp [memPulse, loadProgram, writeImmediate, hw, hl, hp, hr]

theorem memPulse_mmu_of_not_loading (s : MachineState) (h : s.mmu.isLoading = false) :
    (memPulse s).mmu = s.mmu := by
  cases hw : s.mem.isWritePending <;> cases hr : s.mem.isReadPending <;>
    simp [memPulse, h, hw, hr]

theorem intPulse_mem (s : MachineState) : (intPulse s).mem = s.mem := rfl

theorem intPulse_mmu (s : MachineState) : (intPulse s).mmu = s.mmu := rfl

theorem intPulse_running (s : MachineState) : (intPulse s).running = s.running := rfl

theorem intPulse_waiting (s : MachineState) : (intPulse s).waitingInterrupts = [] := rfl

theorem intPulse_cpu_of_empty (s : MachineState) (h : s.waitingInterrupts = []) :
    (intPulse s).cpu = s.cpu := by
  unfold intPulse
  rw [h]
  rfl

theorem systemTick_waiting (s : MachineState) : (systemTick s).waitingInterrupts = [] := rfl

theorem memPulse_waiting (s : MachineState) :
    (memPulse s).waitingInterrupts = s.waitingInterrupts := by
  cases hw : s.mem.isWritePending <;> cases hl : s.mmu.isLoading <;>
    cases hp : s.mmu.PROGRAM <;> cases hr : s.mem.isReadPending <;>
    simp [memPulse, loadProgram, writeImmediate, hw, hl, hp, hr]

/-! ### C1: the Execute → Writeback gate -/

/-- **C1** (code bug).  The source gates Writeback on the JS-truthiness of
`writeAddress && writeValue`, not on "both are set": here INC has latched
`writeAddress = 0x0010` and `writeValue = 0x00` (both set, so the claim
demands Writeback), yet the CPU moves to InterruptCheck and the write of 0
to 0x0010 is skipped. -/
theorem c1_truthiness_gate_skips_writeback :
    (cpuPulse { bootState with
        cpu := { bootState.cpu with
          step := PipelineStep.Execute, currentCyclePulseCount := 1,
          executeFunction := Option.some Instruction.INC,
          operand0 := 0x10, operand1 := 0 },
        mem := { bootState.mem with MDR := 0xFF } }).cpu.writeAddress
        = Option.some 0x10 ∧
    (cpuPulse { bootState with
        cpu := { bootState.cpu with
          step := PipelineStep.Execute, currentCyclePulseCount := 1,
          executeFunction := Option.some Instruction.INC,
          operand0 := 0x10, operand1 := 0 },
        mem := { bootState.mem with MDR := 0xFF } }).cpu.writeValue
        = Option.some 0 ∧
    (cpuPulse { bootState with
        cpu := { bootState.cpu with
          step := PipelineStep.Execute, currentCyclePulseCount := 1,
          executeFunction := Option.some Instruction.INC,
          operand0 := 0x10, operand1 := 0 },
        mem := { bootState.mem with MDR := 0xFF } }).cpu.step
        = PipelineStep.InterruptCheck := by
  exact ⟨rfl, rfl, rfl⟩

/-! ### C2: error handling at the tick boundary -/

/-- On an unknown opcode in Decode, `cpuTick` reports the error and leaves
the state with only the pulse counter advanced (the source throws before
any other mutation; the catch only logs). -/
theorem cpuTick_decode_err (s : MachineState)
    (hr : s.running = true) (hl : s.mmu.isLoading = false)
    (hf : s.cpu.fetchCount = 0) (hs : s.cpu.step = PipelineStep.Decode)
    (hd : decodeEntry s.cpu.opcode s.cpu.xRegister = Option.none) :
    cpuTick s =
      ({ s with cpu := { s.cpu with
          currentCyclePulseCount := s.cpu.currentCyclePulseCount + 1 } },
       Option.some (CpuErr.unknownOpcode s.cpu.opcode)) := by
  unfold cpuTick
  simp [hr, hl, hf, hs, hd]

/-- Invariant of the stuck-Decode state: an unknown opcode leaves the
running, loading, fetch, stage, opcode, X, PC and waiting-list state
untouched forever. -/
theorem c2_aux (o ξ p : Nat) :
    ∀ (n : Nat) (s : MachineState), s.running = true → s.mmu.isLoading = false →
      s.cpu.fetchCount = 0 → s.cpu.step = PipelineStep.Decode →
      s.cpu.opcode = o → s.cpu.xRegister = ξ → s.cpu.pcRegister = p →
      decodeEntry o ξ = Option.none → s.waitingInterrupts = [] →
      (run n s).running = true ∧ (run n s).mmu.isLoading = false ∧
      (run n s).cpu.fetchCount = 0 ∧ (run n s).cpu.step = PipelineStep.Decode ∧
      (run n s).cpu.opcode = o ∧ (run n s).cpu.xRegister = ξ ∧
      (run n s).cpu.pcRegister = p ∧ (run n s).waitingInterrupts = [] := by
  intro n
  induction n with
  | zero => intro s h1 h2 h3 h4 h5 h6 h7 h8 h9; exact ⟨h1, h2, h3, h4, h5, h6, h7, h9⟩
  | succ n ih =>
      intro s h1 h2 h3 h4 h5 h6 h7 h8 h9
      have hct := cpuTick_decode_err s h1 h2 h3 h4 (by rw [h5, h6]; exact h8)
      have hcp : cpuPulse s = { s with cpu := { s.cpu with
          currentCyclePulseCount := s.cpu.currentCyclePulseCount + 1 } } := by
        unfold cpuPulse; rw [hct]
      have hrun : run (n + 1) s = run n (systemTick s) := rfl
      rw [hrun]
      apply ih
      · rw [systemTick, intPulse_running, memPulse_running, hcp]; exact h1
      · rw [systemTick, intPulse_mmu, memPulse_mmu_of_not_loading _ (by rw [hcp]; exact h2), hcp]
        exact h2
      · rw [systemTick, intPulse_cpu_of_empty _ (by rw [memPulse_waiting, hcp]; exact h9),
            memPulse_cpu, hcp]
        exact h3
      · rw [systemTick, intPulse_cpu_of_empty _ (by rw [memPulse_waiting, hcp]; exact h9),
            memPulse_cpu, hcp]
        exact h4
      · rw [systemTick, intPulse_cpu_of_empty _ (by rw [memPulse_waiting, hcp]; exact h9),
            memPulse_cpu, hcp]
        exact h5
      · rw [systemTick, intPulse_cpu_of_empty _ (by rw [memPulse_waiting, hcp]; exact h9),
            memPulse_cpu, hcp]
        exact h6
      · rw [systemTick, intPulse_cpu_of_empty _ (by rw [memPulse_waiting, hcp]; exact h9),
            memPulse_cpu, hcp]
        exact h7
      · exact h8
      · exact systemTick_waiting s

/-- **C2 counterexample.**  An unknown opcode (0x42) in Decode is caught,
but the pipeline does *not* reset to Fetch: the stage stays Decode. -/
theorem c2_stage_not_reset_counterexample :
    (cpuTick { bootState with
        cpu := { bootState.cpu with step := PipelineStep.Decode, opcode := 0x42 } }).2
      = Option.some (CpuErr.unknownOpcode 0x42) ∧
    (cpuPulse { bootState with
        cpu := { bootState.cpu with step := PipelineStep.Decode, opcode := 0x42 } }).cpu.step
      = PipelineStep.Decode ∧
    (cpuPulse { bootState with
        cpu := { bootState.cpu with step := PipelineStep.Decode, opcode := 0x42 } }).cpu.step
      ≠ PipelineStep.Fetch := by
  refine ⟨rfl, rfl, ?_⟩
  decide

/-- **C2** (corrected).  Every error raised inside a CPU tick is caught at
the tick boundary (the pulse returns normally, with only the pulse counter
advanced), but the pipeline is *not* reset to Fetch: the stage stays
Decode, the same opcode remains latched, PC does not advance, and the same
error is re-raised on every subsequent tick — the CPU does not continue
with the next instruction. -/
theorem c2_error_caught_pipeline_not_reset (s : MachineState)
    (hr : s.running = true) (hl : s.mmu.isLoading = false)
    (hf : s.cpu.fetchCount = 0) (hs : s.cpu.step = PipelineStep.Decode)
    (hd : decodeEntry s.cpu.opcode s.cpu.xRegister = Option.none)
    (hw : s.waitingInterrupts = []) :
    cpuPulse s = { s with cpu := { s.cpu with
        currentCyclePulseCount := s.cpu.currentCyclePulseCount + 1 } } ∧
    (cpuTick s).2 = Option.some (CpuErr.unknownOpcode s.cpu.opcode) ∧
    ∀ n, (run n s).cpu.step = PipelineStep.Decode ∧
         (run n s).cpu.opcode = s.cpu.opcode ∧
         (run n s).cpu.pcRegister = s.cpu.pcRegister ∧
         (cpuTick (run n s)).2 = Option.some (CpuErr.unknownOpcode s.cpu.opcode) := by
  have hct := cpuTick_decode_err s hr hl hf hs hd
  refine ⟨by unfold cpuPulse; rw [hct], by rw [hct], ?_⟩
  intro n
  have h := c2_aux s.cpu.opcode s.cpu.xRegister s.cpu.pcRegister n s
    hr hl hf hs rfl rfl rfl hd hw
  obtain ⟨i1, i2, i3, i4, i5, i6, i7, i8⟩ := h
  refine ⟨i4, i5, i7, ?_⟩
  have := cpuTick_decode_err (run n s) i1 i2 i3 i4 (by rw [i5, i6]; exact hd)
  rw [this, i5]

/-- Witness for C2 at a concrete stuck state (opcode 0x42 in Decode). -/
theorem c2_witness :
    (cpuTick { bootState with
        cpu := { bootState.cpu with step := PipelineStep.Decode, opcode := 0x42 } }).2
      = Option.some (CpuErr.unknownOpcode 0x42) ∧
    (run 5 { bootState with
        cpu := { bootState.cpu with step := PipelineStep.Decode, opcode := 0x42 } }).cpu.step
      = PipelineStep.Decode := by
  have h := c2_error_caught_pipeline_not_reset
    { bootState with
        cpu := { bootState.cpu with step := PipelineStep.Decode, opcode := 0x42 } }
    rfl rfl rfl rfl (by decide) rfl
  exact ⟨h.2.1, (h.2.2 5).1⟩

/-! ### C6: Memory tick ordering -/

/-- **C6 counterexample.**  A Memory tick with a pending write during a
program load commits the write but then `loadProgram` re-latches MAR/MDR
with the next queue byte, so after this completed-write tick
`cells[MAR] ≠ MDR` (here `cells[1] = 0` while `MDR = 7`), falsifying the
claimed unconditional invariant. -/
theorem c6_load_relatch_counterexample :
    (memPulse { bootState with
        mem := { bootState.mem with MDR := 5, isWritePending := true },
        mmu := { PROGRAM := [7], loadAddress := 1, isLoading := true } }).mem.MAR = 1 ∧
    (memPulse { bootState with
        mem := { bootState.mem with MDR := 5, isWritePending := true },
        mmu := { PROGRAM := [7], loadAddress := 1, isLoading := true } }).mem.MDR = 7 ∧
    (memPulse { bootState with
        mem := { bootState.mem with MDR := 5, isWritePending := true },
        mmu := { PROGRAM := [7], loadAddress := 1, isLoading := true } }).mem.MEMORY 1 = 0 := by
  exact ⟨rfl, rfl, rfl⟩

/-- **C6** (corrected).  On a Memory tick with no program load in progress
(and byte-sized MDR, in-range MAR): pending flags are consumed; a
completed write leaves `cells[MAR] = MDR` (MAR unchanged); a completed
read leaves `MDR = cells[MAR]`; and when both are pending the write
completes before the read, so the read observes the newly written value. -/
theorem c6_write_before_read (s : MachineState)
    (hload : s.mmu.isLoading = false) (hmdr : s.mem.MDR < 256)
    (hmar : s.mem.MAR < 65536) :
    (memPulse s).mem.isWritePending = false ∧
    (memPulse s).mem.isReadPending = false ∧
    (memPulse s).mem.MAR = s.mem.MAR ∧
    (s.mem.isWritePending = true →
      (memPulse s).mem.MEMORY s.mem.MAR = s.mem.MDR ∧
      (memPulse s).mem.MEMORY (memPulse s).mem.MAR = (memPulse s).mem.MDR) ∧
    (s.mem.isReadPending = true →
      (memPulse s).mem.MDR = (memPulse s).mem.MEMORY s.mem.MAR) ∧
    (s.mem.isWritePending = true → s.mem.isReadPending = true →
      (memPulse s).mem.MDR = s.mem.MDR) := by
  cases hw : s.mem.isWritePending <;> cases hr : s.mem.isReadPending <;>
    simp [memPulse, hload, hw, hr, hmar, Nat.mod_eq_of_lt hmdr]

/-- Witness for C6: both a write and a read pending at MAR 3 with MDR 5. -/
theorem c6_witness :
    (memPulse { bootState with
        mem := { bootState.mem with
          MAR := 3, MDR := 5, isReadPending := true, isWritePending := true } }).mem.MEMORY 3 = 5 ∧
    (memPulse { bootState with
        mem := { bootState.mem with
          MAR := 3, MDR := 5, isReadPending := true, isWritePending := true } }).mem.MDR = 5 := by
  have h := c6_write_before_read
    { bootState with
        mem := { bootState.mem with
          MAR := 3, MDR := 5, isReadPending := true, isWritePending := true } }
    rfl (by decide) (by decide)
  exact ⟨(h.2.2.2.1 rfl).1, h.2.2.2.2.2 rfl rfl⟩

/-! ### C8: interrupt arbitration -/

/-- Characterization of the `forEach` max-scan: if it returns no interrupt
every waiting priority is ≤ −1 (the initial running maximum); if it
returns one, that interrupt is the first-arrived among those of maximal
priority, and its priority exceeds −1. -/
theorem selectInterrupt_spec (l : List Interrupt) :
    ((l.foldl selScan (-1, Option.none)).2 = Option.none →
      (l.foldl selScan (-1, Option.none)).1 = -1 ∧ ∀ j ∈ l, j.priority ≤ -1) ∧
    ∀ i, (l.foldl selScan (-1, Option.none)).2 = Option.some i →
      (l.foldl selScan (-1, Option.none)).1 = i.priority ∧ -1 < i.priority ∧
      (∀ j ∈ l, j.priority ≤ i.priority) ∧
      ∃ l1 l2, l = l1 ++ i :: l2 ∧ ∀ j ∈ l1, j.priority < i.priority := by
  induction l using List.reverseRecOn with
  | nil => exact ⟨fun _ => ⟨rfl, by simp⟩, fun i h => by simp [selScan] at h⟩
  | append_singleton l x ih =>
      obtain ⟨ihn, ihs⟩ := ih
      rw [List.foldl_append]
      simp only [List.foldl_cons, List.foldl_nil]
      have hstep : selScan (List.foldl selScan (-1, Option.none) l) x
          = if x.priority > (List.foldl selScan (-1, Option.none) l).1
            then (x.priority, Option.some x)
            else List.foldl selScan (-1, Option.none) l := rfl
      rw [hstep]
      by_cases hgt : x.priority > (l.foldl selScan (-1, Option.none)).1
      · rw [if_pos hgt]
        constructor
        · intro h; simp at h
        · intro i hi
          simp only [Option.some.injEq] at hi
          subst hi
          have hub : ∀ j ∈ l, j.priority ≤ (l.foldl selScan (-1, Option.none)).1 := by
            cases hsel : (l.foldl selScan (-1, Option.none)).2 with
            | none => intro j hj; have := (ihn hsel).1; rw [this] at hgt ⊢
                      exact (ihn hsel).2 j hj
            | some i' => intro j hj
                         rw [(ihs i' hsel).1]
                         exact (ihs i' hsel).2.2.1 j hj
          have hneg : -1 ≤ (l.foldl selScan (-1, Option.none)).1 := by
            cases hsel : (l.foldl selScan (-1, Option.none)).2 with
            | none => rw [(ihn hsel).1]
            | some i' => rw [(ihs i' hsel).1]; exact le_of_lt (ihs i' hsel).2.1
          refine ⟨rfl, lt_of_le_of_lt hneg hgt, ?_, l, [], rfl, ?_⟩
          · intro j hj
            rcases List.mem_append.mp hj with hj | hj
            · exact le_of_lt (lt_of_le_of_lt (hub j hj) hgt)
            · simp at hj; subst hj; exact le_refl _
          · intro j hj
            exact lt_of_le_of_lt (hub j hj) hgt
      · rw [if_neg hgt]
        push_neg at hgt
        constructor
        · intro h
          obtain ⟨h1, h2⟩ := ihn h
          refine ⟨h1, ?_⟩
          intro j hj
          rcases List.mem_append.mp hj with hj | hj
          · exact h2 j hj
          · simp at hj; subst hj; rw [h1] at hgt; exact hgt
        · intro i hi
          obtain ⟨h1, h2, h3, l1, l2, h4, h5⟩ := ihs i hi
          refine ⟨h1, h2, ?_, l1, l2 ++ [x], ?_, h5⟩
          · intro j hj
            rcases List.mem_append.mp hj with hj | hj
            · exact h3 j hj
            · simp at hj; subst hj; rw [h1] at hgt; exact hgt
          · rw [h4]; simp

/-- **C8** (corrected).  On every InterruptController tick the waiting list
is emptied, and the scan delivers the first-arrived interrupt of strictly
greatest priority — but only when that priority exceeds the scan's −1
sentinel (i.e. is ≥ 0).  If every waiting priority is negative (in
particular when nothing is waiting) null is passed and, since
`Cpu.setInterrupt` ignores null, the CPU's pending slot is unchanged. -/
theorem c8_priority_delivery (s : MachineState) :
    (intPulse s).waitingInterrupts = [] ∧
    (∀ i, selectInterrupt s.waitingInterrupts = Option.some i →
      (intPulse s).cpu.pendingInterrupt = Option.some i ∧
      0 ≤ i.priority ∧
      (∀ j ∈ s.waitingInterrupts, j.priority ≤ i.priority) ∧
      ∃ l1 l2, s.waitingInterrupts = l1 ++ i :: l2 ∧
        ∀ j ∈ l1, j.priority < i.priority) ∧
    (selectInterrupt s.waitingInterrupts = Option.none →
      (intPulse s).cpu.pendingInterrupt = s.cpu.pendingInterrupt ∧
      ∀ j ∈ s.waitingInterrupts, j.priority < 0) := by
  obtain ⟨hn, hs⟩ := selectInterrupt_spec s.waitingInterrupts
  refine ⟨rfl, ?_, ?_⟩
  · intro i hi
    obtain ⟨h1, h2, h3, h4⟩ := hs i hi
    refine ⟨?_, by omega, h3, h4⟩
    unfold intPulse setInterrupt
    rw [hi]
  · intro h
    refine ⟨?_, ?_⟩
    · unfold intPulse setInterrupt
      rw [h]
    · intro j hj
      have := (hn h).2 j hj
      omega

/-- **C8 counterexample.**  A single waiting interrupt of priority −2 has
the strictly greatest priority among the waiting interrupts, yet it is not
delivered (the scan's running maximum starts at −1): the pending slot
stays empty and the interrupt is discarded when the list is cleared. -/
theorem c8_negative_priority_counterexample :
    (intPulse { bootState with
        waitingInterrupts := [{ irqNumber := 1, priority := -2,
                                deviceName := "Dev", data := 0 }] }).cpu.pendingInterrupt
      = Option.none ∧
    (intPulse { bootState with
        waitingInterrupts := [{ irqNumber := 1, priority := -2,
                                deviceName := "Dev", data := 0 }] }).cpu.pendingInterrupt
      ≠ Option.some { irqNumber := 1, priority := -2, deviceName := "Dev", data := 0 } ∧
    (intPulse { bootState with
        waitingInterrupts := [{ irqNumber := 1, priority := -2,
                                deviceName := "Dev", data := 0 }] }).waitingInterrupts
      = [] := by
  refine ⟨rfl, ?_, rfl⟩
  decide

/-! ### C10: persistence of the pending interrupt -/

theorem runMicroOp_pendingInterrupt (ins : Instruction) (s : MachineState) :
    (runMicroOp ins s).1.cpu.pendingInterrupt = s.cpu.pendingInterrupt := by
  cases ins <;>
    simp only [runMicroOp, LDA, LDX, LDY, STA, TXA, TYA, TAX, TAY, ADC, NOP, BRK, CPX,
      BNE, INC, SYS, loadCaseHelper, triggerRead, writeImmediate, appendProgramOutput,
      stopSystem, getMDR] <;>
    split_ifs <;> rfl

/-- Outside the InterruptCheck stage, no part of `Cpu.pulse` touches the
pending-interrupt slot. -/
theorem cpuPulse_pendingInterrupt (s : MachineState)
    (hs : s.cpu.step ≠ PipelineStep.InterruptCheck) :
    (cpuPulse s).cpu.pendingInterrupt = s.cpu.pendingInterrupt := by
  obtain ⟨⟨a, x, y, z, c, pc, ir, op, o0, o1, st, cpc, fc, cf, ef, wa, wv, pi, uc⟩,
    mem, mmu, wl, rn, out⟩ := s
  simp only [] at hs ⊢
  cases rn
  · simp [cpuPulse, cpuTick]
  · cases hl : mmu.isLoading
    · by_cases hf : fc > 0
      · simp only [cpuPulse, cpuTick, hl, hf]
        simp [handleAdditionalFetches, triggerRead, getMDR, setOperand]
        split_ifs <;> rfl
      · cases st
        · simp [cpuPulse, cpuTick, hl, hf]
        · simp only [cpuPulse, cpuTick, hl, hf]
          simp [triggerRead, getMDR]
          split_ifs <;> rfl
        · simp only [cpuPulse, cpuTick, hl, hf]
          cases hd : decodeEntry op x <;> simp [hd]
        · simp only [cpuPulse, cpuTick, hl, hf]
          cases ef with
          | none => simp
          | some ins =>
            have hmo := runMicroOp_pendingInterrupt ins
              { cpu := { aRegister := a, xRegister := x, yRegister := y, zRegister := z,
                         cRegister := c, pcRegister := pc, iRegister := ir, opcode := op,
                         operand0 := o0, operand1 := o1, step := PipelineStep.Execute,
                         currentCyclePulseCount := cpc + 1, fetchCount := fc,
                         currentFetch := cf, executeFunction := Option.some ins,
                         writeAddress := wa, writeValue := wv, pendingInterrupt := pi,
                         useCarry := uc },
                mem := mem, mmu := mmu, waitingInterrupts := wl, running := true,
                output := out }
            simp only [] at hmo
            simp only []
            split_ifs <;> simp_all
        · simp only [cpuPulse, cpuTick, hl, hf]
          simp [writeImmediate]
          split_ifs <;> rfl
        · simp at hs
    · simp [cpuPulse, cpuTick, hl]

theorem runMicroOp_mmu_waiting (ins : Instruction) (s : MachineState) :
    (runMicroOp ins s).1.mmu = s.mmu ∧
    (runMicroOp ins s).1.waitingInterrupts = s.waitingInterrupts := by
  cases ins <;>
    simp only [runMicroOp, LDA, LDX, LDY, STA, TXA, TYA, TAX, TAY, ADC, NOP, BRK, CPX,
      BNE, INC, SYS, loadCaseHelper, triggerRead, writeImmediate, appendProgramOutput,
      stopSystem, getMDR] <;>
    (try split_ifs) <;> simp

/-- `Cpu.pulse` never touches the MMU's load state or the controller's
waiting list. -/
theorem cpuPulse_mmu_waiting (s : MachineState) :
    (cpuPulse s).mmu = s.mmu ∧
    (cpuPulse s).waitingInterrupts = s.waitingInterrupts := by
  obtain ⟨⟨a, x, y, z, c, pc, ir, op, o0, o1, st, cpc, fc, cf, ef, wa, wv, pi, uc⟩,
    mem, mmu, wl, rn, out⟩ := s
  cases rn
  · simp [cpuPulse, cpuTick]
  · cases hl : mmu.isLoading
    · by_cases hf : fc > 0
      · simp only [cpuPulse, cpuTick, hl, hf]
        simp [handleAdditionalFetches, triggerRead, getMDR, setOperand]
        (try split_ifs) <;> simp
      · cases st
        · simp [cpuPulse, cpuTick, hl, hf]
        · simp only [cpuPulse, cpuTick, hl, hf]
          simp [triggerRead, getMDR]
          (try split_ifs) <;> simp
        · simp only [cpuPulse, cpuTick, hl, hf]
          cases hd : decodeEntry op x <;> simp [hd]
        · simp only [cpuPulse, cpuTick, hl, hf]
          cases ef with
          | none => simp
          | some ins =>
            have hmo := runMicroOp_mmu_waiting ins
              { cpu := { aRegister := a, xRegister := x, yRegister := y, zRegister := z,
                         cRegister := c, pcRegister := pc, iRegister := ir, opcode := op,
                         operand0 := o0, operand1 := o1, step := PipelineStep.Execute,
                         currentCyclePulseCount := cpc + 1, fetchCount := fc,
                         currentFetch := cf, executeFunction := Option.some ins,
                         writeAddress := wa, writeValue := wv, pendingInterrupt := pi,
                         useCarry := uc },
                mem := mem, mmu := mmu, waitingInterrupts := wl, running := true,
                output := out }
            simp only [] at hmo
            simp only []
            split_ifs <;> simp_all
        · simp only [cpuPulse, cpuTick, hl, hf]
          simp [writeImmediate]
          (try split_ifs) <;> simp
        · simp only [cpuPulse, cpuTick, hl, hf]
          cases pi
          · simp
          · simp only [stopSystem]
            split_ifs <;> simp
    · simp [cpuPulse, cpuTick, hl]

/-- One full clock pulse outside the InterruptCheck stage, with nothing
waiting at the controller, leaves the pending interrupt unchanged. -/
theorem c10_tick (s : MachineState) (hw : s.waitingInterrupts = [])
    (hs : s.cpu.step ≠ PipelineStep.InterruptCheck) :
    (systemTick s).cpu.pendingInterrupt = s.cpu.pendingInterrupt := by
  have h1 : (memPulse (cpuPulse s)).waitingInterrupts = [] := by
    rw [memPulse_waiting, (cpuPulse_mmu_waiting s).2, hw]
  rw [systemTick, intPulse_cpu_of_empty _ h1, memPulse_cpu]
  exact cpuPulse_pendingInterrupt s hs

/-- **C10.**  `Cpu.setInterrupt null` is a no-op, and a latched pending
interrupt persists unchanged across every tick in which the controller has
nothing waiting and the CPU is not in its InterruptCheck stage. -/
theorem c10_pending_interrupt_persists (n : Nat) :
    (∀ c, setInterrupt Option.none c = c) ∧
    ∀ (s : MachineState), s.waitingInterrupts = [] →
      (∀ k, k < n → (run k s).cpu.step ≠ PipelineStep.InterruptCheck) →
      (run n s).cpu.pendingInterrupt = s.cpu.pendingInterrupt := by
  refine ⟨fun c => rfl, ?_⟩
  induction n with
  | zero => intro s _ _; rfl
  | succ n ih =>
      intro s hw hs
      have hrun : run (n + 1) s = run n (systemTick s) := rfl
      rw [hrun, ih (systemTick s) (systemTick_waiting s)
        (fun k hk => hs (k + 1) (by omega))]
      exact c10_tick s hw (hs 0 (by omega))

/-- Witness for C10: a pending interrupt survives two Fetch-stage ticks. -/
theorem c10_witness :
    (run 2 { bootState with
        cpu := { bootState.cpu with
          pendingInterrupt := Option.some
            { irqNumber := 7, priority := 3, deviceName := "Dev", data := 5 } }
      }).cpu.pendingInterrupt
      = Option.some { irqNumber := 7, priority := 3, deviceName := "Dev", data := 5 } := by
  have h := (c10_pending_interrupt_persists 2).2
    { bootState with
        cpu := { bootState.cpu with
          pendingInterrupt := Option.some
            { irqNumber := 7, priority := 3, deviceName := "Dev", data := 5 } } }
    rfl (by decide)
  exact h

/-! ### C3: byte-width invariants and PC arithmetic -/

/-- Each micro-op keeps the byte registers byte-sized, never writes a
memory cell directly, keeps MDR a byte, and either leaves PC alone or (BNE)
reduces it below 65536. -/
theorem runMicroOp_wf (ins : Instruction) (s : MachineState)
    (h1 : CpuBytesWF s.cpu) (h2 : MemBytesWF s.mem) :
    CpuBytesWF (runMicroOp ins s).1.cpu ∧
    (runMicroOp ins s).1.mem.MEMORY = s.mem.MEMORY ∧
    (runMicroOp ins s).1.mem.MDR < 256 ∧
    ((runMicroOp ins s).1.cpu.pcRegister = s.cpu.pcRegister ∨
      (runMicroOp ins s).1.cpu.pcRegister < 65536) := by
  obtain ⟨ha, hx, hy, hop, ho0, ho1, hwv⟩ := h1
  obtain ⟨hcells, hmdr⟩ := h2
  cases ins <;>
    simp only [runMicroOp, LDA, LDX, LDY, STA, TXA, TYA, TAX, TAY, ADC, NOP, BRK, CPX,
      BNE, INC, SYS, loadCaseHelper, triggerRead, writeImmediate, appendProgramOutput,
      stopSystem, getMDR] <;>
    (try split_ifs) <;>
    simp_all [CpuBytesWF, MemBytesWF] <;>
    omega

/-- `Cpu.pulse` keeps the byte registers byte-sized; PC either advances by
at most one (fetch increments, unmasked) or ends below 65536 (BNE). -/
theorem cpuPulse_wf (s : MachineState)
    (h1 : CpuBytesWF s.cpu) (h2 : MemBytesWF s.mem) :
    CpuBytesWF (cpuPulse s).cpu ∧
    (cpuPulse s).mem.MEMORY = s.mem.MEMORY ∧
    (cpuPulse s).mem.MDR < 256 ∧
    ((cpuPulse s).cpu.pcRegister ≤ s.cpu.pcRegister + 1 ∨
      (cpuPulse s).cpu.pcRegister < 65536) := by
  obtain ⟨⟨a, x, y, z, c, pc, ir, op, o0, o1, st, cpc, fc, cf, ef, wa, wv, pi, uc⟩,
    ⟨cells, mar, mdr, rp, wp⟩, mmu, wl, rn, out⟩ := s
  obtain ⟨ha, hx, hy, hop, ho0, ho1, hwv⟩ := h1
  obtain ⟨hcells, hmdr⟩ := h2
  cases rn
  · simp_all [cpuPulse, cpuTick, CpuBytesWF]
  · cases hl : mmu.isLoading
    · by_cases hf : fc > 0
      · simp only [cpuPulse, cpuTick, hl, hf]
        simp only [handleAdditionalFetches, triggerRead, getMDR, setOperand]
        split_ifs <;> simp_all [CpuBytesWF]
      · cases st
        · simp_all [cpuPulse, cpuTick, hl, hf, CpuBytesWF]
        · simp only [cpuPulse, cpuTick, hl, hf]
          simp only [triggerRead, getMDR]
          split_ifs <;> simp_all [CpuBytesWF]
        · simp only [cpuPulse, cpuTick, hl, hf]
          cases hd : decodeEntry op x <;> simp_all [CpuBytesWF]
        · simp only [cpuPulse, cpuTick, hl, hf]
          cases ef with
          | none => simp_all [CpuBytesWF]
          | some ins =>
            have hmo := runMicroOp_wf ins
              { cpu := { aRegister := a, xRegister := x, yRegister := y, zRegister := z,
                         cRegister := c, pcRegister := pc, iRegister := ir, opcode := op,
                         operand0 := o0, operand1 := o1, step := PipelineStep.Execute,
                         currentCyclePulseCount := cpc + 1, fetchCount := fc,
                         currentFetch := cf, executeFunction := Option.some ins,
                         writeAddress := wa, writeValue := wv, pendingInterrupt := pi,
                         useCarry := uc },
                mem := { MEMORY := cells, MAR := mar, MDR := mdr, isReadPending := rp,
                         isWritePending := wp },
                mmu := mmu, waitingInterrupts := wl, running := true, output := out }
              (by exact ⟨ha, hx, hy, hop, ho0, ho1, hwv⟩) (by exact ⟨hcells, hmdr⟩)
            simp only [] at hmo
            simp only []
            split_ifs <;> simp_all [CpuBytesWF] <;>
              rcases hmo.2.2.2 with hpc | hpc <;> omega
        · simp only [cpuPulse, cpuTick, hl, hf]
          simp only [writeImmediate]
          split_ifs <;> simp_all [CpuBytesWF]
          cases wv <;> simp_all
        · simp only [cpuPulse, cpuTick, hl, hf]
          cases pi
          · simp_all [CpuBytesWF]
          · simp only [stopSystem]
            split_ifs <;> simp_all [CpuBytesWF]
    · simp_all [cpuPulse, cpuTick, hl, CpuBytesWF]

/-- `Memory.pulse` keeps cells and MDR byte-sized (program bytes included)
and the program queue byte-sized. -/
theorem memPulse_wf (s : MachineState)
    (h2 : MemBytesWF s.mem) (h3 : ProgramBytesWF s.mmu) :
    MemBytesWF (memPulse s).mem ∧ ProgramBytesWF (memPulse s).mmu := by
  obtain ⟨hcells, hmdr⟩ := h2
  cases hw : s.mem.isWritePending <;> cases hl : s.mmu.isLoading <;>
    cases hp : s.mmu.PROGRAM <;> cases hr : s.mem.isReadPending <;>
    simp_all [memPulse, loadProgram, writeImmediate, MemBytesWF, ProgramBytesWF] <;>
    (try constructor) <;>
    first
      | (intro i; split_ifs <;> first | omega | exact hcells i)
      | (split_ifs <;> first | omega | exact hcells _)

theorem setInterrupt_bytesWF (o : Option Interrupt) (c : CpuState) (h : CpuBytesWF c) :
    CpuBytesWF (setInterrupt o c) := by
  cases o <;> simpa [setInterrupt, CpuBytesWF] using h

theorem setInterrupt_pc (o : Option Interrupt) (c : CpuState) :
    (setInterrupt o c).pcRegister = c.pcRegister := by
  cases o <;> rfl

/-- **C3 counterexample.**  From a state satisfying the claimed invariant
(all byte registers in 0..255, PC = 0xFFFF ≤ 65535; the CPU is completing
an opcode fetch), one tick leaves PC = 0x10000 > 65535: the fetch increment
`this.pcRegister++` is not reduced mod 65536. -/
theorem c3_pc_exceeds_word_counterexample :
    CpuBytesWF { bootState with
        cpu := { bootState.cpu with
          currentCyclePulseCount := 1, pcRegister := 0xFFFF } }.cpu ∧
    ({ bootState with
        cpu := { bootState.cpu with
          currentCyclePulseCount := 1, pcRegister := 0xFFFF } } :
      MachineState).cpu.pcRegister ≤ 65535 ∧
    (cpuPulse { bootState with
        cpu := { bootState.cpu with
          currentCyclePulseCount := 1, pcRegister := 0xFFFF } }).cpu.pcRegister
      = 0x10000 ∧
    ¬ (cpuPulse { bootState with
        cpu := { bootState.cpu with
          currentCyclePulseCount := 1, pcRegister := 0xFFFF } }).cpu.pcRegister ≤ 65535 := by
  refine ⟨?_, by decide, rfl, by decide⟩
  simp [CpuBytesWF, bootState]

/-- **C3** (corrected).  After every tick A, X, Y, opcode and the operand
bytes stay in 0..255 (given byte-sized memory cells, MDR, latched write
value and program bytes), and these byte invariants are preserved; but PC
arithmetic is reduced mod 65536 only by BNE — the opcode/operand fetch
increments are unmasked, so each tick either raises PC by at most one
(possibly beyond 65535) or leaves it below 65536. -/
theorem c3_byte_invariants_pc_not_masked (s : MachineState)
    (h1 : CpuBytesWF s.cpu) (h2 : MemBytesWF s.mem) (h3 : ProgramBytesWF s.mmu) :
    CpuBytesWF (systemTick s).cpu ∧ MemBytesWF (systemTick s).mem ∧
    ProgramBytesWF (systemTick s).mmu ∧
    ((systemTick s).cpu.pcRegister ≤ s.cpu.pcRegister + 1 ∨
      (systemTick s).cpu.pcRegister < 65536) := by
  have hcw := cpuPulse_wf s h1 h2
  have hm2 : MemBytesWF (cpuPulse s).mem := by
    refine ⟨?_, hcw.2.2.1⟩
    rw [hcw.2.1]
    exact h2.1
  have hp2 : ProgramBytesWF (cpuPulse s).mmu := by
    rw [(cpuPulse_mmu_waiting s).1]
    exact h3
  have hmw := memPulse_wf (cpuPulse s) hm2 hp2
  have hcpu : (systemTick s).cpu
      = setInterrupt (selectInterrupt (memPulse (cpuPulse s)).waitingInterrupts)
          (memPulse (cpuPulse s)).cpu := rfl
  refine ⟨?_, ?_, ?_, ?_⟩
  · rw [hcpu]
    apply setInterrupt_bytesWF
    rw [memPulse_cpu]
    exact hcw.1
  · exact hmw.1
  · exact hmw.2
  · rw [hcpu, setInterrupt_pc, memPulse_cpu]
    exact hcw.2.2.2

/-- Witness for C3 at the boot state. -/
theorem c3_witness :
    CpuBytesWF (systemTick bootState).cpu ∧
    ((systemTick bootState).cpu.pcRegister ≤ bootState.cpu.pcRegister + 1 ∨
      (systemTick bootState).cpu.pcRegister < 65536) := by
  have h := c3_byte_invariants_pc_not_masked bootState
    (by simp [CpuBytesWF, bootState])
    (by exact ⟨fun i => by simp [bootState], by simp [bootState]⟩)
    (by simp [ProgramBytesWF, bootState])
  exact ⟨h.1, h.2.2.2⟩

/-! ### C7: ADC semantics -/

/-- **C7.**  From an Execute-ready ADC state (read and write queues idle,
no load in progress), two clock pulses perform the absolute-addressed add:
`sum = A + M[operand] + (1 if use_carry and C else 0)`, `A ← sum mod 256`
(the source's `sum & 0xFF`), `C ← (sum > 0xFF)`, and Z is untouched. -/
theorem c7_adc (s : MachineState)
    (hr : s.running = true) (hl : s.mmu.isLoading = false)
    (hf : s.cpu.fetchCount = 0) (hs : s.cpu.step = PipelineStep.Execute)
    (he : s.cpu.executeFunction = Option.some Instruction.ADC)
    (hc : s.cpu.currentCyclePulseCount = 0)
    (hrp : s.mem.isReadPending = false) (hwp : s.mem.isWritePending = false) :
    (run 2 s).cpu.aRegister =
      (s.cpu.aRegister + s.mem.MEMORY (absAddress s.cpu) +
        (if s.cpu.useCarry && s.cpu.cRegister then 1 else 0)) % 256 ∧
    ((run 2 s).cpu.cRegister = true ↔
      0xFF < s.cpu.aRegister + s.mem.MEMORY (absAddress s.cpu) +
        (if s.cpu.useCarry && s.cpu.cRegister then 1 else 0)) ∧
    (run 2 s).cpu.zRegister = s.cpu.zRegister := by
  obtain ⟨⟨a, x, y, z, c, pc, ir, op, o0, o1, st, cpc, fc, cf, ef, wa, wv, pi, uc⟩,
    ⟨cells, mar, mdr, rp, wp⟩, mmu, wl, rn, out⟩ := s
  simp only [] at hr hl hf hs he hc hrp hwp ⊢
  subst hr hf hs he hc hrp hwp
  have hnil : selectInterrupt [] = Option.none := rfl
  cases hσ : selectInterrupt wl <;>
    simp [run, systemTick, cpuPulse, cpuTick, memPulse, intPulse, setInterrupt, hσ, hnil,
      hl, runMicroOp, ADC, triggerRead, getMDR, absAddress]

/-- Witness for C7: A = 200, M[0x10] = 100, use_carry and C set:
sum = 301, so A becomes 45 and C stays set; Z (false) is untouched. -/
theorem c7_witness :
    (run 2 { bootState with
        cpu := { bootState.cpu with
          step := PipelineStep.Execute,
          executeFunction := Option.some Instruction.ADC,
          aRegister := 200, operand0 := 0x10, operand1 := 0,
          useCarry := true, cRegister := true },
        mem := { bootState.mem with
          MEMORY := fun i => if i = 0x10 then 100 else 0 } }).cpu.aRegister = 45 ∧
    (run 2 { bootState with
        cpu := { bootState.cpu with
          step := PipelineStep.Execute,
          executeFunction := Option.some Instruction.ADC,
          aRegister := 200, operand0 := 0x10, operand1 := 0,
          useCarry := true, cRegister := true },
        mem := { bootState.mem with
          MEMORY := fun i => if i = 0x10 then 100 else 0 } }).cpu.cRegister = true := by
  have h := c7_adc { bootState with
      cpu := { bootState.cpu with
        step := PipelineStep.Execute,
        executeFunction := Option.some Instruction.ADC,
        aRegister := 200, operand0 := 0x10, operand1 := 0,
        useCarry := true, cRegister := true },
      mem := { bootState.mem with
        MEMORY := fun i => if i = 0x10 then 100 else 0 } }
    rfl rfl rfl rfl rfl rfl rfl rfl
  exact ⟨h.1.trans (by decide), h.2.1.mpr (by decide)⟩

/-- Witness for C8: two interrupts of equal priority 5 — the
first-arrived one is delivered. -/
theorem c8_witness :
    (intPulse { bootState with
        waitingInterrupts :=
          [{ irqNumber := 1, priority := 5, deviceName := "A", data := 0 },
           { irqNumber := 2, priority := 5, deviceName := "B", data := 0 }] }).cpu.pendingInterrupt
      = Option.some { irqNumber := 1, priority := 5, deviceName := "A", data := 0 } := by
  have h := (c8_priority_delivery { bootState with
      waitingInterrupts :=
        [{ irqNumber := 1, priority := 5, deviceName := "A", data := 0 },
         { irqNumber := 2, priority := 5, deviceName := "B", data := 0 }] }).2.1
    { irqNumber := 1, priority := 5, deviceName := "A", data := 0 } (by decide)
  exact h.1

/-! ### C5: program loading -/


/-- While a program load is in progress the CPU tick is a no-op. -/
theorem cpuPulse_of_loading (s : MachineState) (h : s.mmu.isLoading = true) :
    cpuPulse s = s := by
  unfold cpuPulse cpuTick
  cases hr : s.running <;> simp [hr, h]

/-- Load invariant: after `k < N` ticks from `set_program`, byte `k` is
latched with its write pending, bytes `0..k-1` are committed, and the MMU
still reports loading. -/
theorem c5_load_inv (prog : List Nat) (s : MachineState)
    (hb : ∀ b ∈ prog, b < 256) (hlen : prog.length ≤ 65536)
    (hrp : s.mem.isReadPending = false) :
    ∀ k, k < prog.length →
      (run k (setProgram prog s)).mmu
          = ⟨prog.drop (k+1), k+1, true⟩ ∧
      (run k (setProgram prog s)).mem.MAR = k ∧
      (run k (setProgram prog s)).mem.MDR = (prog[k]?).getD 0 ∧
      (run k (setProgram prog s)).mem.isWritePending = true ∧
      (run k (setProgram prog s)).mem.isReadPending = false ∧
      ∀ j, (run k (setProgram prog s)).mem.MEMORY j
          = if j < k then (prog[j]?).getD 0 else 0 := by
  intro k
  induction k with
  | zero =>
      intro hk
      cases prog with
      | nil => simp at hk
      | cons b rest =>
          refine ⟨?_, ?_, ?_, ?_, ?_, ?_⟩ <;>
            simp [run, setProgram, loadProgram, writeImmediate, hrp]
  | succ k ih =>
      intro hk
      have hklt : k < prog.length := by omega
      obtain ⟨i1, i2, i3, i4, i5, i6⟩ := ih hklt
      have hload : (run k (setProgram prog s)).mmu.isLoading = true := by rw [i1]
      have hrun : run (k+1) (setProgram prog s)
          = systemTick (run k (setProgram prog s)) := by
        have : ∀ (n : Nat) (t : MachineState), run (n+1) t = systemTick (run n t) := by
          intro n
          induction n with
          | zero => intro t; rfl
          | succ n ihn => intro t; exact ihn (systemTick t)
        exact this k (setProgram prog s)
      have hdrop : prog.drop (k+1) = (prog[k+1]?).getD 0 :: prog.drop (k+2) := by
        rw [List.drop_eq_getElem_cons hk]
        simp [List.getElem?_eq_getElem hk]
      have hbk : (prog[k]?).getD 0 < 256 := by
        have hm : prog[k] ∈ prog := List.getElem_mem hklt
        have := hb _ hm
        simp [List.getElem?_eq_getElem hklt]
        omega
      rw [hrun, systemTick, cpuPulse_of_loading _ hload]
      constructor
      · rw [intPulse_mmu]
        simp [memPulse, i4, i5, hload, i1, i2, i3, hdrop, loadProgram, writeImmediate]
      refine ⟨?_, ?_, ?_, ?_, ?_⟩ <;>
        rw [intPulse_mem] <;>
        simp [memPulse, i4, i5, hload, i1, i2, i3, hdrop, loadProgram, writeImmediate]
      intro j
      rw [i6 j]
      by_cases hhit : k < 65536 ∧ j = k
      · obtain ⟨hk65, rfl⟩ := hhit
        rw [if_pos ⟨hk65, rfl⟩, if_pos (by omega)]
        exact Nat.mod_eq_of_lt hbk
      · rw [if_neg hhit]
        have hk65 : k < 65536 := by omega
        by_cases hjk : j < k
        · rw [if_pos hjk, if_pos (by omega)]
        · rw [if_neg hjk, if_neg (by omega)]



theorem run_add (a b : Nat) (t : MachineState) :
    run (a + b) t = run b (run a t) := by
  induction a generalizing t with
  | zero => simp [run]
  | succ a ih =>
      have h1 : a + 1 + b = (a + b) + 1 := by omega
      rw [h1]
      show run (a + b) (systemTick t) = run b (run a (systemTick t))
      exact ih (systemTick t)

theorem systemTick_mmu_of_not_loading (s : MachineState)
    (h : s.mmu.isLoading = false) :
    (systemTick s).mmu = s.mmu := by
  have h1 : (cpuPulse s).mmu = s.mmu := (cpuPulse_mmu_waiting s).1
  rw [systemTick, intPulse_mmu, memPulse_mmu_of_not_loading _ (by rw [h1]; exact h), h1]

theorem run_mmu_of_not_loading (m : Nat) (t : MachineState)
    (h : t.mmu.isLoading = false) :
    (run m t).mmu = t.mmu := by
  induction m generalizing t with
  | zero => rfl
  | succ m ih =>
      show (run m (systemTick t)).mmu = t.mmu
      rw [ih (systemTick t) (by rw [systemTick_mmu_of_not_loading t h]; exact h),
        systemTick_mmu_of_not_loading t h]

/-- After exactly `N ≥ 1` ticks the final byte has been committed and the
load queue reports not-loading. -/
theorem c5_load_final (prog : List Nat) (s : MachineState)
    (hb : ∀ b ∈ prog, b < 256) (hlen : prog.length ≤ 65536)
    (hrp : s.mem.isReadPending = false) (hne : 1 ≤ prog.length) :
    (run prog.length (setProgram prog s)).mmu
      = ⟨[], prog.length, false⟩ ∧
    ∀ j, (run prog.length (setProgram prog s)).mem.MEMORY j
      = if j < prog.length then (prog[j]?).getD 0 else 0 := by
  obtain ⟨k, hN⟩ : ∃ k, prog.length = k + 1 := ⟨prog.length - 1, by omega⟩
  have hklt : k < prog.length := by omega
  obtain ⟨i1, i2, i3, i4, i5, i6⟩ := c5_load_inv prog s hb hlen hrp k hklt
  have hload : (run k (setProgram prog s)).mmu.isLoading = true := by rw [i1]
  have hrun : run prog.length (setProgram prog s)
      = systemTick (run k (setProgram prog s)) := by
    rw [hN, show k + 1 = k + 1 from rfl, run_add k 1]
    rfl
  have hdrop : prog.drop (k+1) = [] := by
    rw [← hN]
    exact List.drop_length prog
  have hbk : (prog[k]?).getD 0 < 256 := by
    have hm : prog[k] ∈ prog := List.getElem_mem hklt
    have := hb _ hm
    simp [List.getElem?_eq_getElem hklt]
    omega
  rw [hrun, systemTick, cpuPulse_of_loading _ hload]
  constructor
  · rw [intPulse_mmu]
    simp [memPulse, i4, i5, hload, i1, i2, i3, hdrop, loadProgram, hN]
  · intro j
    rw [intPulse_mem]
    simp [memPulse, i4, i5, hload, i1, i2, i3, hdrop, loadProgram]
    rw [i6 j, hN]
    by_cases hhit : k < 65536 ∧ j = k
    · obtain ⟨hk65, rfl⟩ := hhit
      rw [if_pos ⟨hk65, rfl⟩, if_pos (by omega)]
      exact Nat.mod_eq_of_lt hbk
    · rw [if_neg hhit]
      have hk65 : k < 65536 := by omega
      by_cases hjk : j < k
      · rw [if_pos hjk, if_pos (by omega)]
      · rw [if_neg hjk, if_neg (by omega)]



/-- **C5.**  For a program of `N` bytes (each a byte, `N ≤ 65536`, no stale
read pending), `is_program_loading()` is true at each of the `N` tick
boundaries after `set_program` and false from the `N`-th boundary on
(immediately for an empty program), with byte `j` committed to memory cell
`j` — one byte per tick at consecutive addresses from 0x0000. -/
theorem c5_program_loading (prog : List Nat) (s : MachineState)
    (hb : ∀ b ∈ prog, b < 256) (hlen : prog.length ≤ 65536)
    (hrp : s.mem.isReadPending = false) :
    (∀ k, k < prog.length →
      (run k (setProgram prog s)).mmu.isLoading = true) ∧
    (∀ k, prog.length ≤ k →
      (run k (setProgram prog s)).mmu.isLoading = false) ∧
    (∀ k, k ≤ prog.length → ∀ j, j < k →
      (run k (setProgram prog s)).mem.MEMORY j = (prog[j]?).getD 0) := by
  have hTN : (run prog.length (setProgram prog s)).mmu.isLoading = false := by
    by_cases hne : 1 ≤ prog.length
    · rw [(c5_load_final prog s hb hlen hrp hne).1]
    · have hnil : prog = [] := by
        cases prog with
        | nil => rfl
        | cons b rest => simp at hne
      subst hnil
      simp [run, setProgram, loadProgram]
  refine ⟨?_, ?_, ?_⟩
  · intro k hk
    rw [(c5_load_inv prog s hb hlen hrp k hk).1]
  · intro k hk
    have hsplit : k = prog.length + (k - prog.length) := by omega
    rw [hsplit, run_add]
    rw [run_mmu_of_not_loading _ _ hTN]
    exact hTN
  · intro k hk j hj
    by_cases hkN : k < prog.length
    · rw [(c5_load_inv prog s hb hlen hrp k hkN).2.2.2.2.2 j, if_pos hj]
    · have hkeq : k = prog.length := by omega
      subst hkeq
      have hne : 1 ≤ prog.length := by omega
      rw [(c5_load_final prog s hb hlen hrp hne).2 j, if_pos hj]

/-- Witness for C5: the two-byte program [1, 2]. -/
theorem c5_witness :
    (run 0 (setProgram [1, 2] bootState)).mmu.isLoading = true ∧
    (run 1 (setProgram [1, 2] bootState)).mmu.isLoading = true ∧
    (run 2 (setProgram [1, 2] bootState)).mmu.isLoading = false ∧
    (run 2 (setProgram [1, 2] bootState)).mem.MEMORY 0 = 1 ∧
    (run 2 (setProgram [1, 2] bootState)).mem.MEMORY 1 = 2 := by
  have h := c5_program_loading [1, 2] bootState (by decide) (by decide) rfl
  exact ⟨h.1 0 (by decide), h.1 1 (by decide), h.2.1 2 (by decide),
    (h.2.2 2 (by decide) 0 (by decide)).trans (by decide),
    (h.2.2 2 (by decide) 1 (by decide)).trans (by decide)⟩

/-! ### C9: SYS string print leaves a stale write_address -/

/-- One more tick is one more `systemTick` on the right. -/
theorem run_succ_right (m : Nat) (t : MachineState) :
    run (m + 1) t = systemTick (run m t) := by
  rw [run_add m 1]
  rfl

/-- The SYS X=2/X=3 string scan: after `1 + j` ticks the cursor
`writeAddress` sits at `start + j`, the character there is latched in MDR,
and the first `j` characters have been emitted; nothing else changed. -/
theorem c9_scan_inv (s : MachineState) (start : Nat) (n : Nat)
    (hr : s.running = true) (hl : s.mmu.isLoading = false)
    (hf : s.cpu.fetchCount = 0) (hs : s.cpu.step = PipelineStep.Execute)
    (he : s.cpu.executeFunction = Option.some Instruction.SYS)
    (hc : s.cpu.currentCyclePulseCount = 0)
    (hrp : s.mem.isReadPending = false) (hwp : s.mem.isWritePending = false)
    (hwl : s.waitingInterrupts = [])
    (hx : (s.cpu.xRegister = 2 ∧ start = s.cpu.yRegister) ∨
          (s.cpu.xRegister = 3 ∧ start = absAddress s.cpu))
    (hn : ∀ j, j < n → s.mem.MEMORY (start + j) ≠ 0) :
    ∀ j, j ≤ n →
      run (1 + j) s = { s with
        cpu := { s.cpu with
          currentCyclePulseCount := 1 + j,
          writeAddress := Option.some (start + j) },
        mem := { s.mem with
          MAR := start + j, MDR := s.mem.MEMORY (start + j),
          isReadPending := false },
        waitingInterrupts := [],
        output := s.output ++ (List.range j).map
          (fun i => OutputEvent.ch (s.mem.MEMORY (start + i))) } := by
  obtain ⟨⟨a, x, y, z, c, pc, ir, op, o0, o1, st, cpc, fc, cf, ef, wa, wv, pi, uc⟩,
    ⟨cells, mar, mdr, rp, wp⟩, mmu, wl, rn, out⟩ := s
  simp only [] at hr hl hf hs he hc hrp hwp hwl hx hn ⊢
  subst hr hf hs he hc hrp hwp hwl
  have hnil : selectInterrupt [] = Option.none := rfl
  intro j
  induction j with
  | zero =>
      intro _
      rcases hx with ⟨hx2, hst⟩ | ⟨hx2, hst⟩ <;> subst hx2 hst <;>
        simp [run, systemTick, cpuPulse, cpuTick, memPulse, intPulse, setInterrupt,
          hnil, hl, runMicroOp, SYS, triggerRead, getMDR, absAddress]
  | succ j ih =>
      intro hj
      have hjn : j < n := by omega
      have hih := ih (by omega)
      rw [show 1 + (j + 1) = (1 + j) + 1 by omega, run_succ_right, hih]
      have h2le : 2 ≤ 1 + (j + 1) := by omega
      have h1ne : ¬ (1 + (j + 1) = 1) := by omega
      rcases hx with ⟨hx2, hst⟩ | ⟨hx2, hst⟩ <;> subst hx2 hst <;>
        (try simp only [absAddress] at hn) <;>
        simp [systemTick, cpuPulse, cpuTick, memPulse, intPulse, setInterrupt,
          hnil, hl, runMicroOp, SYS, triggerRead, getMDR, appendProgramOutput,
          absAddress, hn j hjn, h2le, h1ne, List.range_succ, Nat.add_assoc]



/-- **C9.**  A SYS string print (X=2 with start = Y, or X=3 with start =
operand) over an `n`-character string terminated by `M[start+n] = 0`
finishes after `n + 2` ticks with `write_address = some (start+n)` — the
address of the terminator, used as the scan cursor — while `write_value`
is still none; hence the next stage is InterruptCheck, no memory cell is
written, and the stale `write_address` survives the InterruptCheck tick
into the next instruction's Fetch. -/
theorem c9_sys_stale_write_address (s : MachineState) (start n : Nat)
    (hr : s.running = true) (hl : s.mmu.isLoading = false)
    (hf : s.cpu.fetchCount = 0) (hs : s.cpu.step = PipelineStep.Execute)
    (he : s.cpu.executeFunction = Option.some Instruction.SYS)
    (hc : s.cpu.currentCyclePulseCount = 0)
    (hrp : s.mem.isReadPending = false) (hwp : s.mem.isWritePending = false)
    (hwl : s.waitingInterrupts = [])
    (hwv : s.cpu.writeValue = Option.none)
    (hpi : s.cpu.pendingInterrupt = Option.none)
    (hx : (s.cpu.xRegister = 2 ∧ start = s.cpu.yRegister) ∨
          (s.cpu.xRegister = 3 ∧ start = absAddress s.cpu))
    (hn : ∀ j, j < n → s.mem.MEMORY (start + j) ≠ 0)
    (hterm : s.mem.MEMORY (start + n) = 0) :
    (run (n + 2) s).cpu.step = PipelineStep.InterruptCheck ∧
    (run (n + 2) s).cpu.writeAddress = Option.some (start + n) ∧
    (run (n + 2) s).cpu.writeValue = Option.none ∧
    (run (n + 2) s).mem.MEMORY = s.mem.MEMORY ∧
    (run (n + 3) s).cpu.step = PipelineStep.Fetch ∧
    (run (n + 3) s).cpu.writeAddress = Option.some (start + n) := by
  have hinv := c9_scan_inv s start n hr hl hf hs he hc hrp hwp hwl hx hn n (le_refl n)
  have h2 : run (n + 2) s = systemTick (run (1 + n) s) := by
    rw [show n + 2 = (1 + n) + 1 by omega, run_succ_right]
  have h3 : run (n + 3) s = systemTick (run (n + 2) s) := by
    rw [show n + 3 = (n + 2) + 1 by omega, run_succ_right]
  obtain ⟨⟨a, x, y, z, c, pc, ir, op, o0, o1, st, cpc, fc, cf, ef, wa, wv, pi, uc⟩,
    ⟨cells, mar, mdr, rp, wp⟩, mmu, wl, rn, out⟩ := s
  simp only [] at hr hl hf hs he hc hrp hwp hwl hwv hpi hx hn hterm hinv h2 h3 ⊢
  subst hr hf hs he hc hrp hwp hwl hwv hpi
  have hnil : selectInterrupt [] = Option.none := rfl
  have h2le : 2 ≤ 1 + n + 1 := by omega
  have h1ne : ¬ (1 + n + 1 = 1) := by omega
  have ht2 : run (n + 2)
      { cpu := { aRegister := a, xRegister := x, yRegister := y, zRegister := z,
                 cRegister := c, pcRegister := pc, iRegister := ir, opcode := op,
                 operand0 := o0, operand1 := o1, step := PipelineStep.Execute,
                 currentCyclePulseCount := 0, fetchCount := 0, currentFetch := cf,
                 executeFunction := Option.some Instruction.SYS, writeAddress := wa,
                 writeValue := Option.none, pendingInterrupt := Option.none,
                 useCarry := uc },
        mem := { MEMORY := cells, MAR := mar, MDR := mdr, isReadPending := false,
                 isWritePending := false },
        mmu := mmu, waitingInterrupts := [], running := true, output := out }
      = { cpu := {
            aRegister := a, xRegister := x, yRegister := y, zRegister := z,
            cRegister := c, pcRegister := pc, iRegister := ir, opcode := op,
            operand0 := o0, operand1 := o1, step := PipelineStep.InterruptCheck,
            currentCyclePulseCount := 0, fetchCount := 0, currentFetch := cf,
            executeFunction := Option.some Instruction.SYS,
            writeAddress := Option.some (start + n),
            writeValue := Option.none, pendingInterrupt := Option.none,
            useCarry := uc },
          mem := {
            MEMORY := cells, MAR := start + n, MDR := cells (start + n),
            isReadPending := false, isWritePending := false },
          mmu := mmu, waitingInterrupts := [], running := true,
          output := out ++ (List.range n).map
            (fun i => OutputEvent.ch (cells (start + i))) } := by
    rw [h2, hinv]
    rcases hx with ⟨hx2, hst⟩ | ⟨hx2, hst⟩ <;> subst hx2 hst <;>
      (try simp only [absAddress] at hn hterm) <;>
      simp [systemTick, cpuPulse, cpuTick, memPulse, intPulse, setInterrupt,
        hnil, hl, runMicroOp, SYS, triggerRead, getMDR, appendProgramOutput,
        absAddress, hterm, h2le, h1ne, truthyOpt]
  rw [h3, ht2]
  refine ⟨rfl, rfl, rfl, rfl, ?_, ?_⟩ <;>
    simp [systemTick, cpuPulse, cpuTick, memPulse, intPulse, setInterrupt, hnil, hl]

/-- Witness for C9: SYS X=2 printing the one-character string at 0x30. -/
theorem c9_witness :
    (run (1 + 2) { bootState with
        cpu := { bootState.cpu with
          step := PipelineStep.Execute,
          executeFunction := Option.some Instruction.SYS,
          xRegister := 2, yRegister := 0x30 },
        mem := { bootState.mem with
          MEMORY := fun i => if i = 0x30 then 72 else 0 } }).cpu.step
      = PipelineStep.InterruptCheck ∧
    (run (1 + 2) { bootState with
        cpu := { bootState.cpu with
          step := PipelineStep.Execute,
          executeFunction := Option.some Instruction.SYS,
          xRegister := 2, yRegister := 0x30 },
        mem := { bootState.mem with
          MEMORY := fun i => if i = 0x30 then 72 else 0 } }).cpu.writeAddress
      = Option.some 0x31 ∧
    (run (1 + 2) { bootState with
        cpu := { bootState.cpu with
          step := PipelineStep.Execute,
          executeFunction := Option.some Instruction.SYS,
          xRegister := 2, yRegister := 0x30 },
        mem := { bootState.mem with
          MEMORY := fun i => if i = 0x30 then 72 else 0 } }).cpu.writeValue
      = Option.none ∧
    (run (1 + 3) { bootState with
        cpu := { bootState.cpu with
          step := PipelineStep.Execute,
          executeFunction := Option.some Instruction.SYS,
          xRegister := 2, yRegister := 0x30 },
        mem := { bootState.mem with
          MEMORY := fun i => if i = 0x30 then 72 else 0 } }).cpu.writeAddress
      = Option.some 0x31 := by
  have h := c9_sys_stale_write_address { bootState with
      cpu := { bootState.cpu with
        step := PipelineStep.Execute,
        executeFunction := Option.some Instruction.SYS,
        xRegister := 2, yRegister := 0x30 },
      mem := { bootState.mem with
        MEMORY := fun i => if i = 0x30 then 72 else 0 } } 0x30 1
    rfl rfl rfl rfl rfl rfl rfl rfl rfl rfl rfl (Or.inl ⟨rfl, rfl⟩)
    (by decide) (by decide)
  exact ⟨h.1, h.2.1, h.2.2.1, h.2.2.2.2.2⟩

/-! ### C4: 256 × INC -/

/-- What one `INC $0010` instruction does to the cell: increments it —
except that from 255 the incremented value 0 is *falsy*, the truthiness
writeback gate skips the Writeback stage, and the cell stays 255. -/
theorem execINC16_step (s : MachineState) (hr : s.running = true)
    (hl : s.mmu.isLoading = false) (hwl : s.waitingInterrupts = [])
    (hpi : s.cpu.pendingInterrupt = Option.none)
    (hv : s.mem.MEMORY 0x10 < 256) :
    (execINC16 s).mem.MEMORY 0x10
      = (if s.mem.MEMORY 0x10 = 255 then 255 else s.mem.MEMORY 0x10 + 1) ∧
    (execINC16 s).running = true ∧
    (execINC16 s).mmu.isLoading = false ∧
    (execINC16 s).waitingInterrupts = [] ∧
    (execINC16 s).cpu.pendingInterrupt = Option.none ∧
    (execINC16 s).mem.MEMORY 0x10 < 256 := by
  obtain ⟨⟨a, x, y, z, c, pc, ir, op, o0, o1, st, cpc, fc, cf, ef, wa, wv, pi, uc⟩,
    ⟨cells, mar, mdr, rp, wp⟩, mmu, wl, rn, out⟩ := s
  simp only [] at hr hl hwl hpi hv ⊢
  subst hr hwl hpi
  have hnil : selectInterrupt [] = Option.none := rfl
  by_cases h255 : cells 0x10 = 255
  · simp [execINC16, decodedINC16, run, systemTick, cpuPulse, cpuTick, memPulse,
      intPulse, setInterrupt, hnil, hl, runMicroOp, INC, triggerRead, getMDR,
      absAddress, truthyOpt, h255, hv]
  · have hlt : cells 0x10 + 1 < 256 := by omega
    have hmod : (cells 0x10 + 1) % 256 = cells 0x10 + 1 := Nat.mod_eq_of_lt hlt
    have hne0 : cells 0x10 + 1 ≠ 0 := by omega
    simp [execINC16, decodedINC16, run, systemTick, cpuPulse, cpuTick, memPulse,
      intPulse, setInterrupt, hnil, hl, runMicroOp, INC, triggerRead, getMDR,
      absAddress, truthyOpt, h255, hmod, hne0, hv, writeImmediate]
    omega



theorem incEffect_iter (k v : Nat) (hv : v ≤ 255) :
    incEffect^[k] v = min (v + k) 255 := by
  induction k generalizing v with
  | zero => simp; omega
  | succ k ih =>
      rw [Function.iterate_succ_apply]
      by_cases h : v = 255
      · subst h
        rw [show incEffect 255 = 255 from rfl, ih 255 (by omega)]
        omega
      · rw [show incEffect v = v + 1 by simp [incEffect, h], ih (v + 1) (by omega)]
        omega

theorem execINC16_iter (k : Nat) :
    ∀ (s : MachineState), s.running = true → s.mmu.isLoading = false →
      s.waitingInterrupts = [] → s.cpu.pendingInterrupt = Option.none →
      s.mem.MEMORY 0x10 < 256 →
      (execINC16^[k] s).mem.MEMORY 0x10 = incEffect^[k] (s.mem.MEMORY 0x10) := by
  induction k with
  | zero => intro s _ _ _ _ _; rfl
  | succ k ih =>
      intro s h1 h2 h3 h4 h5
      rw [Function.iterate_succ_apply, Function.iterate_succ_apply]
      obtain ⟨e1, e2, e3, e4, e5, e6⟩ := execINC16_step s h1 h2 h3 h4 h5
      rw [ih (execINC16 s) e2 e3 e4 e5 e6, e1]
      congr 1

/-- **C4** (code bug).  Executing `INC $0010` 256 times (each instruction
running through Execute and, when the gate allows, Writeback) from
all-zero memory does NOT return M[0x0010] to its original value 0: the
increment saturates at 255 because the write-back of the wrapped value 0
is skipped by the truthiness gate (the C1 bug). -/
theorem c4_inc_256_leaves_255 :
    bootState.mem.MEMORY 0x10 = 0 ∧
    (execINC16^[256] bootState).mem.MEMORY 0x10 = 255 := by
  refine ⟨rfl, ?_⟩
  rw [execINC16_iter 256 bootState rfl rfl rfl rfl (by simp [bootState])]
  rw [incEffect_iter 256 _ (by simp [bootState])]
  simp [bootState]

end Emu
